import Mathlib

/-!
Verification development for the Document Indexing & Dual-Source Retrieval
Engine of the yuto-49.github.io repository.

The backend RAG core (chunker, vector store, document registry, indexing
pipeline, dual retrieval) is exercised by the repository through its
documented API; where the implementation itself is not present in the
repository snapshot, the definitions below are modelled from the
specification (each such definition says so in its doc comment).  The
frontend logic (`script.js`) is embedded directly from the source.
-/

namespace RagCore

/-- Source type of an uploaded document; closed enumeration
`{resume, company_pdf, project_pdf}` (spec section 3). -/
inductive SourceType where
  | resume
  | company_pdf
  | project_pdf
deriving DecidableEq, Repr

/-- String form of a source type as used in metadata filters. -/
def sourceTypeStr : SourceType → String
  | .resume => "resume"
  | .company_pdf => "company_pdf"
  | .project_pdf => "project_pdf"

/-- Embedding vectors, modelled with exact integer coordinates. -/
abbrev Vec := List Int

/-- Squared Euclidean distance between two vectors (ascending distance is
the ranking order of the Vector Store query). -/
def sqDist (u v : Vec) : Int :=
  ((u.zip v).map (fun p => (p.1 - p.2) ^ 2)).sum

/-- Per-chunk metadata: the exact-match filterable fields (spec section 3). -/
structure Metadata where
  source_type : SourceType
  company : Option String
  doc_id : String
  filename : String
  chunk_idx : Nat
  uploaded_at : String
deriving DecidableEq, Repr

/-- One chunk record persisted in the Vector Store. -/
structure ChunkRec where
  text : String
  vector : Vec
  meta : Metadata
deriving DecidableEq, Repr

/-- One document-level record in the Document Registry. -/
structure Document where
  doc_id : String
  filename : String
  source_type : SourceType
  company : Option String
  uploaded_at : String
  chunk_count : Nat
deriving DecidableEq, Repr

/-- Modelled from the spec: the persistent state of the missing backend
(`pdf_rag.py`) — the Vector Store chunk records and the Document Registry,
each kept in insertion order. -/
structure StoreState where
  chunks : List ChunkRec
  registry : List Document
deriving DecidableEq, Repr

/-- The empty store. -/
def StoreState.empty : StoreState := ⟨[], []⟩

/-! ### Chunker -/

/-- Number of windows covering a text of length `len` when windows advance
by `step` characters: one window starts at every multiple of `step` below
`len`. -/
def numWindows (len step : Nat) : Nat := (len + step - 1) / step

/-- Modelled from the spec (section 4.1, missing source `pdf_rag.py`
chunking): split `text` into overlapping fixed-size windows that advance by
`size - overlap`; the last window may be shorter; empty or whitespace-only
input yields zero chunks. -/
def chunk (text : String) (size overlap : Nat) : List String :=
  let t := text.toList
  if t.all (fun c => c.isWhitespace) then []
  else
    (List.range (numWindows t.length (size - overlap))).map
      (fun i => ((t.drop (i * (size - overlap))).take size).asString)

/-! ### Errors -/

/-- Error kinds of the core (spec section 7). -/
inductive RagError where
  | extractionError
  | emptyDocumentError
  | embeddingServiceError
  | vectorStoreError
  | registryError
  | documentNotFoundError
  | invalidFilterError
deriving DecidableEq, Repr

/-! ### Vector Store: metadata filters and query -/

/-- The closed set of metadata keys admitted by the filter schema. -/
def schemaKeys : List String :=
  ["source_type", "company", "doc_id", "filename", "chunk_idx", "uploaded_at"]

/-- Exact-match test of one filter key against a chunk's metadata. -/
def matchKey (m : Metadata) (k v : String) : Bool :=
  if k = "source_type" then sourceTypeStr m.source_type == v
  else if k = "company" then m.company == some v
  else if k = "doc_id" then m.doc_id == v
  else if k = "filename" then m.filename == v
  else if k = "chunk_idx" then toString m.chunk_idx == v
  else if k = "uploaded_at" then m.uploaded_at == v
  else false

/-- A chunk satisfies a filter when its metadata exactly matches every key. -/
def matchesFilter (m : Metadata) (f : List (String × String)) : Bool :=
  f.all (fun kv => matchKey m kv.1 kv.2)

/-- A filter is valid when every key it uses belongs to the schema. -/
def validFilter (f : List (String × String)) : Bool :=
  f.all (fun kv => schemaKeys.contains kv.1)

/-- Ranking order for query results: ascending distance to the query
vector, with equal distances broken by insertion index (the `Nat`
component), earlier-inserted first. -/
def rankLE (qv : Vec) (a b : Nat × ChunkRec) : Bool :=
  decide (sqDist qv a.2.vector < sqDist qv b.2.vector ∨
    (sqDist qv a.2.vector = sqDist qv b.2.vector ∧ a.1 ≤ b.1))

/-- Strict version of the ranking order, used to state determinism of the
returned ranking. -/
def rankLT (qv : Vec) (a b : Nat × ChunkRec) : Prop :=
  sqDist qv a.2.vector < sqDist qv b.2.vector ∨
    (sqDist qv a.2.vector = sqDist qv b.2.vector ∧ a.1 < b.1)

/-- Modelled from the spec (section 4.3, missing source `pdf_rag.py`):
the filtered candidates of a query, tagged with their insertion index and
sorted by ascending distance with insertion-order tie-breaking. -/
def rankedCandidates (s : StoreState) (qv : Vec) (f : List (String × String)) :
    List (Nat × ChunkRec) :=
  (s.chunks.enum.filter (fun p => matchesFilter p.2.meta f)).mergeSort (rankLE qv)

/-- Modelled from the spec (section 4.3, missing source `pdf_rag.py`):
`query(query_vector, filter, top_k)` returns up to `top_k` chunks ranked by
ascending distance, restricted to chunks matching every filter key; filter
keys outside the schema are rejected. -/
def query (s : StoreState) (qv : Vec) (f : List (String × String)) (top_k : Nat) :
    Except RagError (List ChunkRec) :=
  if validFilter f then
    .ok (((rankedCandidates s qv f).take top_k).map Prod.snd)
  else
    .error .invalidFilterError

/-! ### Deletion and listing -/

/-- Modelled from the spec (sections 4.3 and 4.4, missing source
`pdf_rag.py` / `app.py`): `delete_document(doc_id)` first removes every
chunk with that `doc_id` from the Vector Store, then removes the registry
entry; an unknown `doc_id` is reported as `DocumentNotFoundError`. -/
def delete_document (s : StoreState) (id : String) : StoreState × Except RagError Unit :=
  if s.registry.any (fun d => d.doc_id == id) then
    (⟨s.chunks.filter (fun c => decide (c.meta.doc_id ≠ id)),
        s.registry.filter (fun d => decide (d.doc_id ≠ id))⟩,
      .ok ())
  else
    (⟨s.chunks.filter (fun c => decide (c.meta.doc_id ≠ id)), s.registry⟩,
      .error .documentNotFoundError)

/-- The three source-type groups returned by `list_documents`. -/
structure DocGroups where
  resume : List Document
  company_pdf : List Document
  project_pdf : List Document
deriving DecidableEq, Repr

/-- The group of a `DocGroups` value selected by source type. -/
def sourceGroup (g : DocGroups) : SourceType → List Document
  | .resume => g.resume
  | .company_pdf => g.company_pdf
  | .project_pdf => g.project_pdf

/-- Modelled from the spec (section 4.4, missing source `pdf_rag.py` /
`app.py`): `list_documents()` partitions the registry by `source_type`
into the groups `resume`, `company_pdf`, `project_pdf`, keeping insertion
order inside each group. -/
def list_documents (s : StoreState) : DocGroups :=
  ⟨s.registry.filter (fun d => d.source_type == SourceType.resume),
    s.registry.filter (fun d => d.source_type == SourceType.company_pdf),
    s.registry.filter (fun d => d.source_type == SourceType.project_pdf)⟩

/-! ### Indexing pipeline -/

/-- External collaborators of one indexing run: the extraction result, the
embedding gateway, and the success of the two persistence steps. -/
structure UploadEnv where
  extracted : Option String
  embedOf : String → Option Vec
  insertOk : Bool
  registerOk : Bool

/-- Request-side parameters of one indexing run. -/
structure UploadReq where
  doc_id : String
  filename : String
  source_type : SourceType
  company : Option String
  uploaded_at : String
  size : Nat
  overlap : Nat

/-- Result handed to the caller on successful indexing. -/
structure IndexedResult where
  doc_id : String
  filename : String
  source_type : SourceType
  chunk_count : Nat
deriving DecidableEq, Repr

/-- Embed every chunk text through the gateway, building the chunk records
with consecutive `chunk_idx` starting at `i`; any single embedding failure
fails the whole batch. -/
def embedChunks (embedOf : String → Option Vec) (r : UploadReq) (i : Nat) :
    List String → Option (List ChunkRec)
  | [] => some []
  | t :: ts =>
    match embedOf t, embedChunks embedOf r (i + 1) ts with
    | some v, some rest =>
        some (⟨t, v, ⟨r.source_type, r.company, r.doc_id, r.filename, i, r.uploaded_at⟩⟩ :: rest)
    | _, _ => none

/-- Modelled from the spec (section 4.5, missing source `pdf_rag.py` /
`app.py`): the indexing pipeline state machine
Extracting → Chunking → Embedding → Persisting, with all-or-nothing
semantics — every failure surfaces an error with the pre-call state, and a
registry failure after a successful Vector Store insert rolls the inserted
chunks back. -/
def runPipeline (env : UploadEnv) (r : UploadReq) (s : StoreState) :
    StoreState × Except RagError IndexedResult :=
  match env.extracted with
  | none => (s, .error .extractionError)
  | some text =>
    if text = "" then (s, .error .extractionError)
    else
      let cs := chunk text r.size r.overlap
      if cs = [] then (s, .error .emptyDocumentError)
      else
        match embedChunks env.embedOf r 0 cs with
        | none => (s, .error .embeddingServiceError)
        | some recs =>
          if env.insertOk then
            let inserted : StoreState := ⟨s.chunks ++ recs, s.registry⟩
            if env.registerOk then
              (⟨inserted.chunks,
                  inserted.registry ++
                    [⟨r.doc_id, r.filename, r.source_type, r.company, r.uploaded_at, cs.length⟩]⟩,
                .ok ⟨r.doc_id, r.filename, r.source_type, cs.length⟩)
            else
              (⟨inserted.chunks.filter (fun c => decide (c.meta.doc_id ≠ r.doc_id)),
                  inserted.registry⟩,
                .error .registryError)
          else (s, .error .vectorStoreError)

/-! ### Dual retrieval -/

/-- Filter of the resume-group sub-query. -/
def resumeFilter : List (String × String) := [("source_type", "resume")]

/-- Filter of the company-group sub-query: `source_type = company_pdf`,
plus the company name when one is provided. -/
def companyFilter : Option String → List (String × String)
  | none => [("source_type", "company_pdf")]
  | some co => [("source_type", "company_pdf"), ("company", co)]

/-- Modelled from the spec (section 4.6) and the dual-retrieval steps
documented in the repository's RAG readme: embed the query text once,
query the resume group, query the company group, and concatenate the two
hit lists in that fixed order. -/
def dual_retrieve (embed : String → Vec) (s : StoreState) (query_text : String)
    (company : Option String) (resume_k company_k : Nat) :
    Except RagError (List ChunkRec) :=
  match query s (embed query_text) resumeFilter resume_k,
      query s (embed query_text) (companyFilter company) company_k with
  | .ok r, .ok c => .ok (r ++ c)
  | .error e, _ => .error e
  | .ok _, .error e => .error e

/-! ### Invariants -/

/-- The `doc_id` is fresh for the state: no chunk and no registry entry
carries it (spec: a `doc_id` is assigned at creation and never reused). -/
def freshDocId (s : StoreState) (id : String) : Prop :=
  (∀ c ∈ s.chunks, c.meta.doc_id ≠ id) ∧ ∀ d ∈ s.registry, d.doc_id ≠ id

/-- Registry/store consistency: every registered document's `chunk_count`
equals the number of chunk records live in the store for its `doc_id`. -/
def chunkCountInv (s : StoreState) : Prop :=
  ∀ d ∈ s.registry,
    d.chunk_count = (s.chunks.filter (fun c => c.meta.doc_id == d.doc_id)).length

/-- Referential consistency: every chunk's `doc_id` references a
registered document (spec invariant (b)). -/
def refInv (s : StoreState) : Prop :=
  ∀ c ∈ s.chunks, ∃ d ∈ s.registry, d.doc_id = c.meta.doc_id

end RagCore

namespace Frontend

/-- One document summary as delivered by the list-documents endpoint and
consumed by `script.js` (`createDocumentItem`). -/
structure DocSummary where
  doc_id : String
  filename : String
  company : Option String
  uploaded_at : Option String
  total_chunks : Nat
deriving DecidableEq, Repr

/-- The `documents` argument of `displayDocuments`: a JavaScript object
whose three expected keys may each be present (an array) or absent
(`undefined`). -/
structure DocumentsArg where
  resume : Option (List DocSummary)
  company_pdf : Option (List DocSummary)
  project_pdf : Option (List DocSummary)
deriving DecidableEq, Repr

/-- JavaScript runtime error raised by `displayDocuments`. -/
inductive JsError where
  | typeErrorUndefinedLength
deriving DecidableEq, Repr

/-- Outcome of a normal `displayDocuments` run. -/
inductive DisplayResult where
  | emptyMessage
  | rendered (html : String)
deriving DecidableEq, Repr

/-- Reading `.length` of a possibly-undefined JavaScript array: throws a
TypeError when the value is `undefined`. -/
def lengthRead : Option (List DocSummary) → Except JsError Nat
  | none => .error .typeErrorUndefinedLength
  | some l => .ok l.length

/-- Embeds `createDocumentItem` (script.js lines 729-742): the company is
shown only when truthy (JavaScript: the empty string is falsy), the date
only when `uploaded_at` is truthy. -/
def createDocumentItem (doc : DocSummary) : String :=
  let company := match doc.company with
    | some c => if c = "" then "" else " • " ++ c
    | none => ""
  let date := match doc.uploaded_at with
    | some d => if d = "" then "" else d
    | none => ""
  "<div class=document-item><div class=document-filename>" ++ doc.filename ++
    "</div><div class=document-meta>" ++ date ++ company ++ " • " ++
    toString doc.total_chunks ++ " chunks</div><button data-doc-id=" ++
    doc.doc_id ++ ">Delete</button></div>"

/-- HTML of one non-empty document group (script.js lines 689-716). -/
def groupHtml (title : String) (docs : List DocSummary) : String :=
  "<div class=document-group><div class=document-group-title>" ++ title ++
    "</div>" ++ String.join (docs.map createDocumentItem) ++ "</div>"

/-- Embeds `displayDocuments` (script.js lines 675-727): first reads
`.length` of `documents.resume`, `documents.company_pdf` and
`documents.project_pdf` in that order to compute `totalDocs` — throwing a
TypeError as soon as one of the three keys is absent — then renders either
the empty message or the three groups, skipping empty groups. -/
def displayDocuments (documents : DocumentsArg) : Except JsError DisplayResult := do
  let rLen ← lengthRead documents.resume
  let cLen ← lengthRead documents.company_pdf
  let pLen ← lengthRead documents.project_pdf
  if rLen + cLen + pLen = 0 then
    return DisplayResult.emptyMessage
  else
    return DisplayResult.rendered
      ((if rLen > 0 then groupHtml "Resume" (documents.resume.getD []) else "") ++
        (if cLen > 0 then groupHtml "Company Documents" (documents.company_pdf.getD []) else "") ++
        (if pLen > 0 then groupHtml "Project Documents" (documents.project_pdf.getD []) else ""))

/-- Embeds the expression `filterCompany || undefined` of the career-path
submit handler (script.js line 634): a falsy string — the empty string —
becomes `undefined`, any other string passes through unchanged. -/
def jsOrUndefined (s : String) : Option String :=
  if s = "" then none else some s

/-- The career-path request object built by the submit handler
(script.js lines 632-636). -/
structure CareerPathRequest where
  target_role : String
  company : Option String
deriving DecidableEq, Repr

/-- Embeds the construction of the JSON body sent to the career-path
endpoint (script.js lines 632-636). -/
def buildCareerPathRequest (targetRole filterCompany : String) : CareerPathRequest :=
  ⟨targetRole, jsOrUndefined filterCompany⟩

/-- Embeds `JSON.stringify` on the request object: fields holding
`undefined` are omitted from the serialized body entirely. -/
def stringifyFields (r : CareerPathRequest) : List (String × String) :=
  ("target_role", r.target_role) ::
    (match r.company with
      | none => []
      | some c => [("company", c)])

end Frontend

namespace RagCore

theorem embedChunks_length (e : String → Option Vec) (r : UploadReq) :
    ∀ (i : Nat) (cs : List String) (recs : List ChunkRec),
      embedChunks e r i cs = some recs → recs.length = cs.length := by
  intro i cs
  induction cs generalizing i with
  | nil => intro recs h; simp only [embedChunks, Option.some.injEq] at h; simp [← h]
  | cons t ts ih =>
    intro recs h
    simp only [embedChunks] at h
    rcases he : e t with _ | v <;> rw [he] at h
    · exact absurd h (by simp)
    · rcases hr : embedChunks e r (i + 1) ts with _ | rest <;> rw [hr] at h
      · exact absurd h (by simp)
      · simp only [Option.some.injEq] at h
        subst h
        simp [ih (i + 1) rest hr]

theorem embedChunks_doc_id (e : String → Option Vec) (r : UploadReq) :
    ∀ (i : Nat) (cs : List String) (recs : List ChunkRec),
      embedChunks e r i cs = some recs → ∀ c ∈ recs, c.meta.doc_id = r.doc_id := by
  intro i cs
  induction cs generalizing i with
  | nil => intro recs h; simp only [embedChunks, Option.some.injEq] at h; simp [← h]
  | cons t ts ih =>
    intro recs h
    simp only [embedChunks] at h
    rcases he : e t with _ | v <;> rw [he] at h
    · exact absurd h (by simp)
    · rcases hr : embedChunks e r (i + 1) ts with _ | rest <;> rw [hr] at h
      · exact absurd h (by simp)
      · simp only [Option.some.injEq] at h
        subst h
        intro c hc
        rcases List.mem_cons.mp hc with hc | hc
        · subst hc; rfl
        · exact ih (i + 1) rest hr c hc

theorem filter_ne_of_all_eq {recs : List ChunkRec} {id : String}
    (hall : ∀ c ∈ recs, c.meta.doc_id = id) :
    recs.filter (fun c => decide (c.meta.doc_id ≠ id)) = [] := by
  rw [List.filter_eq_nil_iff]
  intro c hc
  simp [hall c hc]

theorem filter_ne_of_fresh {cs : List ChunkRec} {id : String}
    (hfresh : ∀ c ∈ cs, c.meta.doc_id ≠ id) :
    cs.filter (fun c => decide (c.meta.doc_id ≠ id)) = cs := by
  rw [List.filter_eq_self]
  intro c hc
  simp [hfresh c hc]

theorem runPipeline_error_state (env : UploadEnv) (r : UploadReq) (s : StoreState)
    (hfresh : ∀ c ∈ s.chunks, c.meta.doc_id ≠ r.doc_id) :
    ∀ e, (runPipeline env r s).2 = Except.error e → (runPipeline env r s).1 = s := by
  intro e h
  obtain ⟨ext, emb, ins, reg⟩ := env
  obtain ⟨sc, sr⟩ := s
  cases ext with
  | none => rfl
  | some text =>
    simp only [runPipeline] at h ⊢
    by_cases htext : text = ""
    · simp [htext]
    · simp only [if_neg htext] at h ⊢
      by_cases hcs : chunk text r.size r.overlap = []
      · simp [hcs]
      · simp only [if_neg hcs] at h ⊢
        rcases hemb : embedChunks emb r 0 (chunk text r.size r.overlap) with _ | recs
        · rfl
        · cases ins with
          | false => rfl
          | true =>
            cases reg with
            | false =>
              have hall := embedChunks_doc_id emb r 0 _ recs hemb
              have h1 : (sc ++ recs).filter (fun c => decide (c.meta.doc_id ≠ r.doc_id)) = sc := by
                rw [List.filter_append, filter_ne_of_fresh hfresh, filter_ne_of_all_eq hall,
                  List.append_nil]
              show (⟨(sc ++ recs).filter (fun c => decide (c.meta.doc_id ≠ r.doc_id)), sr⟩ :
                  StoreState) = ⟨sc, sr⟩
              rw [h1]
            | true =>
              rw [hemb] at h
              simp at h

theorem runPipeline_ok_state (env : UploadEnv) (r : UploadReq) (s : StoreState)
    (res : IndexedResult) (h : (runPipeline env r s).2 = Except.ok res) :
    ∃ text recs,
      env.extracted = some text ∧
      embedChunks env.embedOf r 0 (chunk text r.size r.overlap) = some recs ∧
      (runPipeline env r s).1 =
        ⟨s.chunks ++ recs,
          s.registry ++
            [⟨r.doc_id, r.filename, r.source_type, r.company, r.uploaded_at,
              (chunk text r.size r.overlap).length⟩]⟩ ∧
      res = ⟨r.doc_id, r.filename, r.source_type, (chunk text r.size r.overlap).length⟩ := by
  obtain ⟨ext, emb, ins, reg⟩ := env
  cases ext with
  | none => simp [runPipeline] at h
  | some text =>
    refine ⟨text, ?_⟩
    simp only [runPipeline] at h ⊢
    by_cases htext : text = ""
    · simp [htext] at h
    · simp only [if_neg htext] at h ⊢
      by_cases hcs : chunk text r.size r.overlap = []
      · simp [hcs] at h
      · simp only [if_neg hcs] at h ⊢
        rcases hemb : embedChunks emb r 0 (chunk text r.size r.overlap) with _ | recs
        · rw [hemb] at h
          simp at h
        · rw [hemb] at h
          cases ins with
          | false => simp at h
          | true =>
            cases reg with
            | false => simp at h
            | true =>
              have h2 :
                  Except.ok (⟨r.doc_id, r.filename, r.source_type,
                    (chunk text r.size r.overlap).length⟩ : IndexedResult) = Except.ok res := h
              exact ⟨recs, by trivial, rfl, rfl, (Except.ok.inj h2).symm⟩

theorem filter_count_insert_other {sc recs : List ChunkRec} {d : Document} {id : String}
    (hall : ∀ c ∈ recs, c.meta.doc_id = id) (hne : d.doc_id ≠ id) :
    (sc ++ recs).filter (fun c => c.meta.doc_id == d.doc_id) =
      sc.filter (fun c => c.meta.doc_id == d.doc_id) := by
  rw [List.filter_append]
  have hnil : recs.filter (fun c => c.meta.doc_id == d.doc_id) = [] := by
    rw [List.filter_eq_nil_iff]
    intro c hc
    simp only [hall c hc, beq_iff_eq]
    exact fun hc2 => hne hc2.symm
  rw [hnil, List.append_nil]

theorem chunkCountInv_insert (s : StoreState) (recs : List ChunkRec) (nd : Document)
    (hinv : chunkCountInv s) (hfreshC : ∀ c ∈ s.chunks, c.meta.doc_id ≠ nd.doc_id)
    (hfreshR : ∀ d ∈ s.registry, d.doc_id ≠ nd.doc_id)
    (hall : ∀ c ∈ recs, c.meta.doc_id = nd.doc_id)
    (hcount : nd.chunk_count = recs.length) :
    chunkCountInv ⟨s.chunks ++ recs, s.registry ++ [nd]⟩ := by
  intro d hd
  rcases List.mem_append.mp hd with hd | hd
  · show d.chunk_count = ((s.chunks ++ recs).filter (fun c => c.meta.doc_id == d.doc_id)).length
    rw [filter_count_insert_other hall (hfreshR d hd)]
    exact hinv d hd
  · have hdn : d = nd := by simpa using hd
    subst hdn
    show d.chunk_count = ((s.chunks ++ recs).filter (fun c => c.meta.doc_id == d.doc_id)).length
    rw [List.filter_append]
    have h1 : s.chunks.filter (fun c => c.meta.doc_id == d.doc_id) = [] := by
      rw [List.filter_eq_nil_iff]
      intro c hc
      simp only [beq_iff_eq]
      exact hfreshC c hc
    have h2 : recs.filter (fun c => c.meta.doc_id == d.doc_id) = recs := by
      rw [List.filter_eq_self]
      intro c hc
      simp [hall c hc]
    rw [h1, h2, List.nil_append]
    exact hcount

theorem filter_comm_ne {cs : List ChunkRec} {did id : String} (hne : did ≠ id) :
    (cs.filter (fun c => decide (c.meta.doc_id ≠ id))).filter
        (fun c => c.meta.doc_id == did) =
      cs.filter (fun c => c.meta.doc_id == did) := by
  rw [List.filter_filter]
  apply List.filter_congr
  intro c _
  by_cases hc : c.meta.doc_id = did
  · simp [hc, hne]
  · simp [hc]

theorem chunkCountInv_delete (s : StoreState) (id : String) (hinv : chunkCountInv s) :
    chunkCountInv (delete_document s id).1 := by
  unfold delete_document
  by_cases hany : s.registry.any (fun d => d.doc_id == id)
  · rw [if_pos hany]
    intro d hd
    rcases List.mem_filter.mp hd with ⟨hdr, hdp⟩
    have hne : d.doc_id ≠ id := by simpa using hdp
    show d.chunk_count = _
    dsimp only
    rw [filter_comm_ne hne]
    exact hinv d hdr
  · rw [if_neg hany]
    intro d hd
    have hne : d.doc_id ≠ id := by
      intro hEq
      exact hany (List.any_eq_true.mpr ⟨d, hd, by simp [hEq]⟩)
    show d.chunk_count = _
    dsimp only
    rw [filter_comm_ne hne]
    exact hinv d hd

theorem rankLE_trans (qv : Vec) : ∀ (a b c : Nat × ChunkRec),
    rankLE qv a b = true → rankLE qv b c = true → rankLE qv a c = true := by
  intro a b c
  simp only [rankLE, decide_eq_true_eq]
  omega

theorem rankLE_total (qv : Vec) : ∀ (a b : Nat × ChunkRec),
    (rankLE qv a b || rankLE qv b a) = true := by
  intro a b
  simp only [rankLE, Bool.or_eq_true, decide_eq_true_eq]
  omega

theorem snd_mem_of_enum_mem {α : Type} {l : List α} {p : Nat × α} (hp : p ∈ l.enum) :
    p.2 ∈ l := by
  have hm : p.2 ∈ l.enum.map Prod.snd := List.mem_map_of_mem Prod.snd hp
  rwa [List.enum_map_snd] at hm

theorem rankedCandidates_mem {s : StoreState} {qv : Vec} {f : List (String × String)}
    {p : Nat × ChunkRec} (hp : p ∈ rankedCandidates s qv f) :
    p ∈ s.chunks.enum ∧ matchesFilter p.2.meta f = true := by
  have hm := List.mem_mergeSort.mp hp
  have := List.mem_filter.mp hm
  exact ⟨this.1, this.2⟩

theorem rankedCandidates_pairwise (s : StoreState) (qv : Vec) (f : List (String × String)) :
    (rankedCandidates s qv f).Pairwise (rankLT qv) := by
  have hle : (rankedCandidates s qv f).Pairwise (fun a b => rankLE qv a b = true) :=
    List.sorted_mergeSort (rankLE_trans qv) (rankLE_total qv) _
  have hperm : List.Perm (rankedCandidates s qv f)
      (s.chunks.enum.filter (fun p => matchesFilter p.2.meta f)) :=
    List.mergeSort_perm _ _
  have hnodFiltered :
      ((s.chunks.enum.filter (fun p => matchesFilter p.2.meta f)).map Prod.fst).Nodup := by
    apply List.Nodup.sublist (List.Sublist.map Prod.fst (List.filter_sublist _))
    rw [List.enum_map_fst]
    exact List.nodup_range _
  have hnod : ((rankedCandidates s qv f).map Prod.fst).Nodup :=
    (hperm.map Prod.fst).nodup_iff.mpr hnodFiltered
  have hpne : (rankedCandidates s qv f).Pairwise (fun a b => a.1 ≠ b.1) :=
    List.pairwise_map.mp hnod
  refine (hle.and hpne).imp ?_
  intro a b hab
  obtain ⟨h1, h2⟩ := hab
  simp only [rankLE, decide_eq_true_eq] at h1
  unfold rankLT
  omega

theorem mem_of_query_ok {s : StoreState} {qv : Vec} {f : List (String × String)} {k : Nat}
    {res : List ChunkRec} (h : query s qv f k = Except.ok res) {c : ChunkRec}
    (hc : c ∈ res) : c ∈ s.chunks ∧ matchesFilter c.meta f = true := by
  unfold query at h
  by_cases hv : validFilter f
  · rw [if_pos hv] at h
    have hres : ((rankedCandidates s qv f).take k).map Prod.snd = res := Except.ok.inj h
    rw [← hres] at hc
    rcases List.mem_map.mp hc with ⟨p, hp, hpc⟩
    have hp2 := List.mem_of_mem_take hp
    have hmem := rankedCandidates_mem hp2
    exact ⟨hpc ▸ snd_mem_of_enum_mem hmem.1, hpc ▸ hmem.2⟩
  · rw [if_neg hv] at h
    exact absurd h (by simp)

theorem sourceGroup_subset {s : StoreState} {st : SourceType} {d : Document}
    (hd : d ∈ sourceGroup (list_documents s) st) : d ∈ s.registry := by
  cases st <;> exact (List.mem_filter.mp hd).1

theorem sourceTypeStr_eq_resume {st : SourceType} (h : sourceTypeStr st = "resume") :
    st = SourceType.resume := by
  cases st
  · rfl
  · exact absurd h (by decide)
  · exact absurd h (by decide)

theorem sourceTypeStr_eq_company {st : SourceType} (h : sourceTypeStr st = "company_pdf") :
    st = SourceType.company_pdf := by
  cases st
  · exact absurd h (by decide)
  · rfl
  · exact absurd h (by decide)

theorem matchesFilter_resume_src {m : Metadata}
    (h : matchesFilter m resumeFilter = true) : m.source_type = SourceType.resume := by
  simp only [matchesFilter, resumeFilter, List.all_cons, List.all_nil, Bool.and_true,
    matchKey] at h
  simp at h
  exact sourceTypeStr_eq_resume h

theorem matchesFilter_company_src {m : Metadata} {co : Option String}
    (h : matchesFilter m (companyFilter co) = true) :
    m.source_type = SourceType.company_pdf ∧
      ∀ coName, co = some coName → m.company = some coName := by
  cases co with
  | none =>
    simp only [matchesFilter, companyFilter, List.all_cons, List.all_nil, Bool.and_true,
      matchKey] at h
    simp at h
    exact ⟨sourceTypeStr_eq_company h, fun x hx => absurd hx (by simp)⟩
  | some coName =>
    simp only [matchesFilter, companyFilter, List.all_cons, List.all_nil, Bool.and_true,
      matchKey] at h
    simp at h
    obtain ⟨h1, h2⟩ := h
    refine ⟨sourceTypeStr_eq_company h1, ?_⟩
    intro x hx
    have hx2 := Option.some.inj hx
    subst hx2
    exact h2

theorem validFilter_companyFilter (co : Option String) :
    validFilter (companyFilter co) = true := by
  cases co <;> rfl

/-! ### Concrete fixtures used by the witnesses -/

/-- A concrete upload request. -/
def exReq : UploadReq := ⟨"doc1", "resume.pdf", SourceType.resume, none, "2024-01-15", 4, 1⟩

/-- Concrete chunk metadata for a resume chunk. -/
def exMetaR : Metadata := ⟨SourceType.resume, none, "doc1", "resume.pdf", 0, "2024-01-15"⟩

/-- Concrete chunk metadata for a company chunk. -/
def exMetaC : Metadata := ⟨SourceType.company_pdf, some "Acme", "doc2", "acme.pdf", 0, "2024-01-16"⟩

/-- A concrete resume chunk record. -/
def exChunkR : ChunkRec := ⟨"python and sql", [0], exMetaR⟩

/-- A concrete company chunk record. -/
def exChunkC : ChunkRec := ⟨"requirements", [3], exMetaC⟩

/-- A concrete registered resume document. -/
def exDocR : Document := ⟨"doc1", "resume.pdf", SourceType.resume, none, "2024-01-15", 1⟩

/-- A concrete registered company document. -/
def exDocC : Document := ⟨"doc2", "acme.pdf", SourceType.company_pdf, some "Acme", "2024-01-16", 1⟩

/-- A concrete consistent store with one resume and one company document. -/
def exStore : StoreState := ⟨[exChunkR, exChunkC], [exDocR, exDocC]⟩

/-- A concrete embedding gateway that always succeeds. -/
def exEmbed : String → Option Vec := fun t => some [Int.ofNat t.length]

/-- An environment in which every step of the pipeline succeeds. -/
def exEnvOk : UploadEnv := ⟨some "alpha beta", exEmbed, true, true⟩

/-- An environment in which the embedding gateway fails. -/
def exEnvEmbedFail : UploadEnv := ⟨some "alpha beta", fun _ => none, true, true⟩

end RagCore

namespace RagCore

/-- Claim C7: chunking is a pure function of its arguments — two calls of
`chunk` with identical `(text, size, overlap)` (with `size > overlap ≥ 0`)
return identical sequences of spans: same count, same contents, same
order. -/
theorem chunk_deterministic (t1 t2 : String) (s1 s2 o1 o2 : Nat)
    (ht : t1 = t2) (hs : s1 = s2) (ho : o1 = o2) (_hso : o1 < s1) :
    chunk t1 s1 o1 = chunk t2 s2 o2 ∧
      (chunk t1 s1 o1).length = (chunk t2 s2 o2).length := by
  subst ht; subst hs; subst ho
  exact ⟨rfl, rfl⟩

/-- Witness for C7 at a concrete input. -/
theorem chunk_deterministic_witness :
    (1 : Nat) < 4 ∧
      (chunk "hello world" 4 1 = chunk "hello world" 4 1 ∧
        (chunk "hello world" 4 1).length = (chunk "hello world" 4 1).length) :=
  ⟨by decide, chunk_deterministic "hello world" "hello world" 4 4 1 1 rfl rfl rfl (by decide)⟩

/-- Claim C1: any indexing run that ends in a Failed state — extraction,
chunking, embedding, or persistence failure — leaves the observable state
equal to the pre-call state: no chunk of the run is queryable in the
Vector Store and no document appears in the registry; in particular an
embedding failure leaves zero chunks persisted. -/
theorem indexing_failure_rolls_back (env : UploadEnv) (r : UploadReq) (s : StoreState)
    (e : RagError) (hfresh : ∀ c ∈ s.chunks, c.meta.doc_id ≠ r.doc_id)
    (hfail : (runPipeline env r s).2 = Except.error e) :
    (runPipeline env r s).1 = s ∧
      (runPipeline env r s).1.chunks = s.chunks ∧
      (runPipeline env r s).1.registry = s.registry := by
  have h := runPipeline_error_state env r s hfresh e hfail
  exact ⟨h, by rw [h], by rw [h]⟩

/-- Witness for C1: an embedding failure on the empty store rolls back to
the empty store. -/
theorem indexing_failure_rolls_back_witness :
    ((∀ c ∈ StoreState.empty.chunks, c.meta.doc_id ≠ exReq.doc_id) ∧
        (runPipeline exEnvEmbedFail exReq StoreState.empty).2 =
          Except.error RagError.embeddingServiceError) ∧
      (runPipeline exEnvEmbedFail exReq StoreState.empty).1 = StoreState.empty ∧
      (runPipeline exEnvEmbedFail exReq StoreState.empty).1.chunks = StoreState.empty.chunks ∧
      (runPipeline exEnvEmbedFail exReq StoreState.empty).1.registry =
        StoreState.empty.registry :=
  ⟨⟨fun c hc => absurd hc (by simp [StoreState.empty]), rfl⟩,
    indexing_failure_rolls_back exEnvEmbedFail exReq StoreState.empty
      RagError.embeddingServiceError (fun c hc => absurd hc (by simp [StoreState.empty])) rfl⟩

/-- Claim C3: starting from a consistent state and a fresh `doc_id`, after an
indexing run the `chunk_count` stored in the registry for every visible
document equals the number of live chunk records with its `doc_id`, and
the same consistency is preserved by `delete_document`; `query` takes no
state and so trivially preserves it. -/
theorem chunk_count_consistency (env : UploadEnv) (r : UploadReq) (s : StoreState)
    (id : String) (hinv : chunkCountInv s) (hfresh : freshDocId s r.doc_id) :
    chunkCountInv (runPipeline env r s).1 ∧ chunkCountInv (delete_document s id).1 := by
  constructor
  · rcases hres : (runPipeline env r s).2 with e | res
    · rw [runPipeline_error_state env r s hfresh.1 e hres]
      exact hinv
    · obtain ⟨text, recs, hext, hemb, hstate, hres2⟩ := runPipeline_ok_state env r s res hres
      rw [hstate]
      exact chunkCountInv_insert s recs _ hinv hfresh.1 hfresh.2
        (embedChunks_doc_id _ r 0 _ recs hemb)
        (embedChunks_length _ r 0 _ recs hemb).symm
  · exact chunkCountInv_delete s id hinv

/-- Witness for C3: a successful indexing run into the empty store. -/
theorem chunk_count_consistency_witness :
    (chunkCountInv StoreState.empty ∧ freshDocId StoreState.empty exReq.doc_id) ∧
      chunkCountInv (runPipeline exEnvOk exReq StoreState.empty).1 ∧
      chunkCountInv (delete_document StoreState.empty "nope").1 :=
  have hinv : chunkCountInv StoreState.empty := fun d hd => absurd hd (by simp [StoreState.empty])
  have hfresh : freshDocId StoreState.empty exReq.doc_id :=
    ⟨fun c hc => absurd hc (by simp [StoreState.empty]),
      fun d hd => absurd hd (by simp [StoreState.empty])⟩
  ⟨⟨hinv, hfresh⟩, chunk_count_consistency exEnvOk exReq StoreState.empty "nope" hinv hfresh⟩

/-- Claim C5: for every store state, `query(query_vector, filter, top_k)` with a
filter using a key outside the schema is rejected with an error; with a
valid filter it returns at most `top_k` chunks, each of which is a stored
chunk whose metadata exactly matches every filter key, ordered by
ascending distance to the query vector with equal-distance ties broken by
insertion order (earlier-inserted first). -/
theorem query_spec (s : StoreState) (qv : Vec) (f : List (String × String)) (k : Nat) :
    (validFilter f = false → query s qv f k = Except.error RagError.invalidFilterError) ∧
      (validFilter f = true →
        query s qv f k = Except.ok (((rankedCandidates s qv f).take k).map Prod.snd) ∧
          (((rankedCandidates s qv f).take k).map Prod.snd).length ≤ k ∧
          (∀ p ∈ (rankedCandidates s qv f).take k,
            p ∈ s.chunks.enum ∧ matchesFilter p.2.meta f = true) ∧
          ((rankedCandidates s qv f).take k).Pairwise (rankLT qv)) := by
  constructor
  · intro hv
    unfold query
    rw [if_neg (by simp [hv])]
  · intro hv
    refine ⟨by unfold query; rw [if_pos hv], ?_, ?_, ?_⟩
    · rw [List.length_map]
      exact List.length_take_le _ _
    · intro p hp
      exact rankedCandidates_mem (List.mem_of_mem_take hp)
    · exact List.Pairwise.sublist (List.take_sublist k _) (rankedCandidates_pairwise s qv f)

/-- Witness for C5: an unknown-key filter is rejected, and a resume query
on a concrete store satisfies the bound, filter, and ordering clauses. -/
theorem query_spec_witness :
    (validFilter [("bogus", "x")] = false ∧
        query exStore [0] [("bogus", "x")] 1 = Except.error RagError.invalidFilterError) ∧
      (validFilter resumeFilter = true ∧
        (query exStore [0] resumeFilter 1 =
            Except.ok (((rankedCandidates exStore [0] resumeFilter).take 1).map Prod.snd) ∧
          (((rankedCandidates exStore [0] resumeFilter).take 1).map Prod.snd).length ≤ 1 ∧
          (∀ p ∈ (rankedCandidates exStore [0] resumeFilter).take 1,
            p ∈ exStore.chunks.enum ∧ matchesFilter p.2.meta resumeFilter = true) ∧
          ((rankedCandidates exStore [0] resumeFilter).take 1).Pairwise (rankLT [0]))) :=
  ⟨⟨rfl, (query_spec exStore [0] [("bogus", "x")] 1).1 rfl⟩,
    ⟨rfl, (query_spec exStore [0] resumeFilter 1).2 rfl⟩⟩

/-- Claim C6: deleting a document whose `doc_id` is not registered fails with
`DocumentNotFoundError` and leaves the store and registry unchanged
(given the referential-consistency invariant relating chunks to the
registry). -/
theorem delete_unknown_reported (s : StoreState) (id : String)
    (href : refInv s) (hunknown : ∀ d ∈ s.registry, d.doc_id ≠ id) :
    delete_document s id = (s, Except.error RagError.documentNotFoundError) := by
  unfold delete_document
  have hany : s.registry.any (fun d => d.doc_id == id) = false := by
    rw [List.any_eq_false]
    intro d hd
    simp [hunknown d hd]
  rw [if_neg (by simp [hany])]
  have hchunks : s.chunks.filter (fun c => decide (c.meta.doc_id ≠ id)) = s.chunks := by
    apply filter_ne_of_fresh
    intro c hc
    obtain ⟨d, hd, hdc⟩ := href c hc
    rw [← hdc]
    exact hunknown d hd
  rw [hchunks]

/-- Witness for C6: deleting an unregistered identifier on a concrete
consistent store reports `DocumentNotFoundError` and changes nothing. -/
theorem delete_unknown_reported_witness :
    (refInv exStore ∧ (∀ d ∈ exStore.registry, d.doc_id ≠ "ghost")) ∧
      delete_document exStore "ghost" =
        (exStore, Except.error RagError.documentNotFoundError) :=
  have h1 : refInv exStore := by unfold refInv; decide
  have h2 : ∀ d ∈ exStore.registry, d.doc_id ≠ "ghost" := by decide
  ⟨⟨h1, h2⟩, delete_unknown_reported exStore "ghost" h1 h2⟩

/-- Claim C4: after `delete_document(doc_id)` completes successfully, a query
with any filter never returns a chunk whose `doc_id` matches, the deleted
document is in no group of `list_documents`, and neither a chunk nor a
registry entry with that `doc_id` survives. -/
theorem delete_removes_document (s : StoreState) (id : String)
    (h : (delete_document s id).2 = Except.ok ()) :
    (∀ qv f k res, query (delete_document s id).1 qv f k = Except.ok res →
        ∀ c ∈ res, c.meta.doc_id ≠ id) ∧
      (∀ st : SourceType,
        ∀ d ∈ sourceGroup (list_documents (delete_document s id).1) st, d.doc_id ≠ id) ∧
      (∀ c ∈ (delete_document s id).1.chunks, c.meta.doc_id ≠ id) ∧
      (∀ d ∈ (delete_document s id).1.registry, d.doc_id ≠ id) := by
  have hchunks : ∀ c ∈ (delete_document s id).1.chunks, c.meta.doc_id ≠ id := by
    unfold delete_document
    by_cases hany : s.registry.any (fun d => d.doc_id == id)
    · rw [if_pos hany]
      intro c hc
      have := (List.mem_filter.mp hc).2
      simpa using this
    · rw [if_neg hany]
      intro c hc
      have := (List.mem_filter.mp hc).2
      simpa using this
  have hreg : ∀ d ∈ (delete_document s id).1.registry, d.doc_id ≠ id := by
    unfold delete_document at h ⊢
    by_cases hany : s.registry.any (fun d => d.doc_id == id)
    · rw [if_pos hany]
      intro d hd
      have := (List.mem_filter.mp hd).2
      simpa using this
    · rw [if_neg hany] at h
      exact absurd h (by simp)
  refine ⟨?_, ?_, hchunks, hreg⟩
  · intro qv f k res hq c hc
    exact hchunks c (mem_of_query_ok hq hc).1
  · intro st d hd
    exact hreg d (sourceGroup_subset hd)

/-- Witness for C4: deleting the concrete resume document. -/
theorem delete_removes_document_witness :
    (delete_document exStore "doc1").2 = Except.ok () ∧
      ((∀ qv f k res, query (delete_document exStore "doc1").1 qv f k = Except.ok res →
          ∀ c ∈ res, c.meta.doc_id ≠ "doc1") ∧
        (∀ st : SourceType,
          ∀ d ∈ sourceGroup (list_documents (delete_document exStore "doc1").1) st,
            d.doc_id ≠ "doc1") ∧
        (∀ c ∈ (delete_document exStore "doc1").1.chunks, c.meta.doc_id ≠ "doc1") ∧
        (∀ d ∈ (delete_document exStore "doc1").1.registry, d.doc_id ≠ "doc1")) :=
  ⟨rfl, delete_removes_document exStore "doc1" rfl⟩

/-- Claim C2: `dual_retrieve(query_text, company?, resume_k, company_k)` returns
exactly the resume-filtered query's hits (in their ranked order, at most
`resume_k`) followed by the company-filtered query's hits (in their
ranked order, at most `company_k`), with no cross-group re-ranking and no
deduplication; a group with zero hits contributes nothing and is not an
error. -/
theorem dual_retrieve_concat (embed : String → Vec) (s : StoreState) (qt : String)
    (co : Option String) (rk ck : Nat) :
    ∃ r c, query s (embed qt) resumeFilter rk = Except.ok r ∧
      query s (embed qt) (companyFilter co) ck = Except.ok c ∧
      dual_retrieve embed s qt co rk ck = Except.ok (r ++ c) ∧
      r.length ≤ rk ∧ c.length ≤ ck ∧
      (∀ ch ∈ r, ch.meta.source_type = SourceType.resume) ∧
      (∀ ch ∈ c, ch.meta.source_type = SourceType.company_pdf) ∧
      (∀ coName, co = some coName → ∀ ch ∈ c, ch.meta.company = some coName) ∧
      (r = [] → dual_retrieve embed s qt co rk ck = Except.ok c) ∧
      (c = [] → dual_retrieve embed s qt co rk ck = Except.ok r) := by
  have hq1 : query s (embed qt) resumeFilter rk =
      Except.ok (((rankedCandidates s (embed qt) resumeFilter).take rk).map Prod.snd) := by
    unfold query
    exact if_pos (show validFilter resumeFilter = true from rfl)
  have hq2 : query s (embed qt) (companyFilter co) ck =
      Except.ok
        (((rankedCandidates s (embed qt) (companyFilter co)).take ck).map Prod.snd) := by
    unfold query
    exact if_pos (validFilter_companyFilter co)
  have hdual : dual_retrieve embed s qt co rk ck =
      Except.ok ((((rankedCandidates s (embed qt) resumeFilter).take rk).map Prod.snd) ++
        (((rankedCandidates s (embed qt) (companyFilter co)).take ck).map Prod.snd)) := by
    unfold dual_retrieve
    rw [hq1, hq2]
  refine ⟨_, _, hq1, hq2, hdual, ?_, ?_, ?_, ?_, ?_, ?_, ?_⟩
  · rw [List.length_map]
    exact List.length_take_le _ _
  · rw [List.length_map]
    exact List.length_take_le _ _
  · intro ch hch
    exact matchesFilter_resume_src (mem_of_query_ok hq1 hch).2
  · intro ch hch
    exact (matchesFilter_company_src (mem_of_query_ok hq2 hch).2).1
  · intro coName hco ch hch
    exact (matchesFilter_company_src (mem_of_query_ok hq2 hch).2).2 coName hco
  · intro h0
    rw [hdual, h0, List.nil_append]
  · intro h0
    rw [hdual, h0, List.append_nil]

/-- Witness for C2 at a concrete store and query. -/
theorem dual_retrieve_concat_witness :
    ∃ r c, query exStore [0] resumeFilter 2 = Except.ok r ∧
      query exStore [0] (companyFilter (some "Acme")) 2 = Except.ok c ∧
      dual_retrieve (fun _ => ([0] : Vec)) exStore "skills" (some "Acme") 2 2 =
        Except.ok (r ++ c) ∧
      r.length ≤ 2 ∧ c.length ≤ 2 ∧
      (∀ ch ∈ r, ch.meta.source_type = SourceType.resume) ∧
      (∀ ch ∈ c, ch.meta.source_type = SourceType.company_pdf) ∧
      (∀ coName, (some "Acme" : Option String) = some coName →
        ∀ ch ∈ c, ch.meta.company = some coName) ∧
      (r = [] → dual_retrieve (fun _ => ([0] : Vec)) exStore "skills" (some "Acme") 2 2 =
        Except.ok c) ∧
      (c = [] → dual_retrieve (fun _ => ([0] : Vec)) exStore "skills" (some "Acme") 2 2 =
        Except.ok r) :=
  dual_retrieve_concat (fun _ => ([0] : Vec)) exStore "skills" (some "Acme") 2 2

/-- Claim C8: `list_documents()` partitions the registry into exactly the three
source-type groups `resume`, `company_pdf`, `project_pdf`: every group
contains only documents of its source type, every registered document
appears in the group of its source type and in no other, and each group
preserves registry insertion order. -/
theorem list_documents_partition (s : StoreState) :
    (∀ st : SourceType, ∀ d ∈ sourceGroup (list_documents s) st, d.source_type = st) ∧
      (∀ d ∈ s.registry, d ∈ sourceGroup (list_documents s) d.source_type) ∧
      (∀ st : SourceType, ∀ d ∈ sourceGroup (list_documents s) st, d ∈ s.registry) ∧
      (∀ st : SourceType, List.Sublist (sourceGroup (list_documents s) st) s.registry) := by
  refine ⟨?_, ?_, fun st d hd => sourceGroup_subset hd, ?_⟩
  · intro st d hd
    cases st <;> simpa using (List.mem_filter.mp hd).2
  · intro d hd
    cases hst : d.source_type <;>
      exact List.mem_filter.mpr ⟨hd, by simp [hst]⟩
  · intro st
    cases st <;> exact List.filter_sublist _

/-- Witness for C8 at a concrete registry. -/
theorem list_documents_partition_witness :
    (∀ st : SourceType, ∀ d ∈ sourceGroup (list_documents exStore) st, d.source_type = st) ∧
      (∀ d ∈ exStore.registry, d ∈ sourceGroup (list_documents exStore) d.source_type) ∧
      (∀ st : SourceType, ∀ d ∈ sourceGroup (list_documents exStore) st, d ∈ exStore.registry) ∧
      (∀ st : SourceType, List.Sublist (sourceGroup (list_documents exStore) st)
        exStore.registry) :=
  list_documents_partition exStore

end RagCore

namespace Frontend

theorem displayDocuments_some (rl cl pl : List DocSummary) :
    displayDocuments ⟨some rl, some cl, some pl⟩ =
      if rl.length + cl.length + pl.length = 0 then Except.ok DisplayResult.emptyMessage
      else
        Except.ok (DisplayResult.rendered
          ((if rl.length > 0 then groupHtml "Resume" rl else "") ++
            (if cl.length > 0 then groupHtml "Company Documents" cl else "") ++
            (if pl.length > 0 then groupHtml "Project Documents" pl else ""))) := rfl

theorem displayDocuments_noneR (c p : Option (List DocSummary)) :
    displayDocuments ⟨none, c, p⟩ = Except.error JsError.typeErrorUndefinedLength := rfl

theorem displayDocuments_noneC (rl : List DocSummary) (p : Option (List DocSummary)) :
    displayDocuments ⟨some rl, none, p⟩ = Except.error JsError.typeErrorUndefinedLength := rfl

theorem displayDocuments_noneP (rl cl : List DocSummary) :
    displayDocuments ⟨some rl, some cl, none⟩ =
      Except.error JsError.typeErrorUndefinedLength := rfl

/-- Claim C9: `displayDocuments` terminates normally exactly when its
`documents` argument maps each of the three keys `resume`, `company_pdf`
and `project_pdf` to an array (possibly empty); if any of the three keys
is absent the function throws while reading `.length` of `undefined` — so
the rendering assumes the list endpoint always returns all three
source-type groups, even empty ones. -/
theorem displayDocuments_termination (d : DocumentsArg) :
    ((∃ out, displayDocuments d = Except.ok out) ↔
        (d.resume.isSome = true ∧ d.company_pdf.isSome = true ∧
          d.project_pdf.isSome = true)) ∧
      ((d.resume = none ∨ d.company_pdf = none ∨ d.project_pdf = none) →
        displayDocuments d = Except.error JsError.typeErrorUndefinedLength) := by
  obtain ⟨r, c, p⟩ := d
  cases r with
  | none =>
    refine ⟨?_, fun _ => displayDocuments_noneR c p⟩
    constructor
    · rintro ⟨out, hout⟩
      rw [displayDocuments_noneR] at hout
      simp at hout
    · rintro ⟨hr, _, _⟩
      simp at hr
  | some rl =>
    cases c with
    | none =>
      refine ⟨?_, fun _ => displayDocuments_noneC rl p⟩
      constructor
      · rintro ⟨out, hout⟩
        rw [displayDocuments_noneC] at hout
        simp at hout
      · rintro ⟨_, hc, _⟩
        simp at hc
    | some cl =>
      cases p with
      | none =>
        refine ⟨?_, fun _ => displayDocuments_noneP rl cl⟩
        constructor
        · rintro ⟨out, hout⟩
          rw [displayDocuments_noneP] at hout
          simp at hout
        · rintro ⟨_, _, hp⟩
          simp at hp
      | some pl =>
        refine ⟨?_, ?_⟩
        · constructor
          · intro _
            exact ⟨rfl, rfl, rfl⟩
          · intro _
            by_cases h0 : rl.length + cl.length + pl.length = 0
            · exact ⟨DisplayResult.emptyMessage, by rw [displayDocuments_some, if_pos h0]⟩
            · exact ⟨DisplayResult.rendered
                ((if rl.length > 0 then groupHtml "Resume" rl else "") ++
                  (if cl.length > 0 then groupHtml "Company Documents" cl else "") ++
                  (if pl.length > 0 then groupHtml "Project Documents" pl else "")),
                by rw [displayDocuments_some, if_neg h0]⟩
        · rintro (h | h | h) <;> simp at h

/-- Witness for C9: a `documents` object missing the `resume` key throws,
and so does not satisfy the all-keys-present condition. -/
theorem displayDocuments_termination_witness :
    ((∃ out, displayDocuments ⟨none, some [], some []⟩ = Except.ok out) ↔
        ((none : Option (List DocSummary)).isSome = true ∧
          (some ([] : List DocSummary)).isSome = true ∧
          (some ([] : List DocSummary)).isSome = true)) ∧
      (((none : Option (List DocSummary)) = none ∨
          (some ([] : List DocSummary)) = none ∨ (some ([] : List DocSummary)) = none) →
        displayDocuments ⟨none, some [], some []⟩ =
          Except.error JsError.typeErrorUndefinedLength) :=
  displayDocuments_termination ⟨none, some [], some []⟩

/-- Claim C10: for the career-path form submit handler, an empty company filter
input makes the JSON body omit the `company` field entirely, while a
non-empty input passes the company string through unchanged. -/
theorem careerPath_company_field (targetRole filterCompany : String) :
    (filterCompany = "" →
        (buildCareerPathRequest targetRole filterCompany).company = none ∧
          ∀ v, ("company", v) ∉
            stringifyFields (buildCareerPathRequest targetRole filterCompany)) ∧
      (filterCompany ≠ "" →
        (buildCareerPathRequest targetRole filterCompany).company = some filterCompany ∧
          ("company", filterCompany) ∈
            stringifyFields (buildCareerPathRequest targetRole filterCompany)) := by
  constructor
  · intro h0
    subst h0
    refine ⟨rfl, ?_⟩
    intro v hv
    simp [stringifyFields, buildCareerPathRequest, jsOrUndefined] at hv
  · intro hne
    have h1 : jsOrUndefined filterCompany = some filterCompany := by
      unfold jsOrUndefined
      rw [if_neg hne]
    have h2 : (buildCareerPathRequest targetRole filterCompany).company =
        some filterCompany := by
      unfold buildCareerPathRequest
      exact h1
    refine ⟨h2, ?_⟩
    simp [stringifyFields, h2]

/-- Witness for C10: the empty filter omits the field, the filter "Acme"
passes through. -/
theorem careerPath_company_field_witness :
    (("" : String) = "" ∧
        ((buildCareerPathRequest "Data Scientist" "").company = none ∧
          ∀ v, ("company", v) ∉ stringifyFields (buildCareerPathRequest "Data Scientist" ""))) ∧
      (("Acme" : String) ≠ "" ∧
        ((buildCareerPathRequest "Data Scientist" "Acme").company = some "Acme" ∧
          ("company", "Acme") ∈
            stringifyFields (buildCareerPathRequest "Data Scientist" "Acme"))) :=
  ⟨⟨rfl, (careerPath_company_field "Data Scientist" "").1 rfl⟩,
    ⟨by decide, (careerPath_company_field "Data Scientist" "Acme").2 (by decide)⟩⟩

end Frontend
